import Mathlib

/-!
Verification of the mini-vrew media export pipeline against its
natural-language specification.

The development shallow-embeds the relevant source modules:

* the FFmpeg worker (current revision and the earlier legacy revision):
  time formatting, trim-argument construction, the trim / burn-in job
  handlers (as message-trace functions over an environment recording the
  outcome of each IO step), and cancel handling;
* the FFmpeg client (job table, single-concurrency guard, timeout and
  terminal-message bookkeeping) as a small-step state machine over an
  explicit event alphabet;
* the caption time-transform operations (splitCaptionNext in both source
  revisions, SRT trim adjustment);
* the recommendation-count bounds of the video detail page;
* the export controller's startExport dispatch decision.

All times are integer milliseconds.  JS numbers appearing in the source
are embedded as Nat or Int as noted at each definition.
-/

namespace MiniVrew

/-! ## Shared error codes (ffmpegTypes.ts) -/

/-- Error codes of the export pipeline, from ffmpegTypes.ts. -/
inductive FFmpegErrorCode where
  | INIT_FAILED
  | INPUT_ERROR
  | OUTPUT_ERROR
  | CANCELLED
  | TIMEOUT
  | OUT_OF_MEMORY
  | INVALID_ARGS
  | NOT_READY
  | UNKNOWN
deriving DecidableEq

/-! ## Decimal padding helpers

JS `n.toString().padStart(2, '0')` and `padStart(3, '0')` for natural
numbers. -/

/-- Zero-pad a natural number to at least two decimal digits. -/
def pad2 (n : Nat) : String :=
  if n < 10 then "0" ++ toString n else toString n

/-- Zero-pad a natural number to at least three decimal digits. -/
def pad3 (n : Nat) : String :=
  if n < 10 then "00" ++ toString n
  else if n < 100 then "0" ++ toString n
  else toString n

/-! ## FFmpeg worker, current revision (ffmpeg.worker.ts) -/

namespace FFmpegWorker

/-- `msToFFmpegTime` of the current worker: renders a millisecond count as
`HH:MM:SS.mmm` (hours and minutes zero-padded to 2 digits, seconds
rendered by `toFixed(3)` then padded to width 6, which for integer input
milliseconds is `SS.mmm`). -/
def msToFFmpegTime (ms : Nat) : String :=
  pad2 (ms / 3600000) ++ ":" ++ pad2 (ms % 3600000 / 60000) ++ ":" ++
    pad2 (ms % 60000 / 1000) ++ "." ++ pad3 (ms % 1000)

/-- `buildTrimArgs` of the current worker.  `startMs` is a nonnegative
integer number of milliseconds; `endMs` is `some e` when the source value
is a finite number and `none` when it is `undefined`, `null` or
`Infinity` (the `typeof endMs === 'number' && Number.isFinite(endMs)`
test).  The duration pushed for a finite end is `endMs - startMs`
(callers always pass `endMs > startMs` for finite windows; Nat
subtraction agrees with JS subtraction there). -/
def buildTrimArgs (startMs : Nat) (endMs : Option Nat) : List String :=
  (if 0 < startMs then ["-ss", msToFFmpegTime startMs] else []) ++
    (match endMs with
     | some e => ["-t", msToFFmpegTime (e - startMs)]
     | none => [])

/-- Worker → controller messages (`WorkerResponse`), restricted to the
per-job messages.  `outputLen` is the byte length of the transferred
output buffer; progress is in percent (the source uses fractions of 1). -/
inductive WMsg where
  | progress (jobId : Nat) (pct : Nat) (stage : String)
  | completed (jobId : Nat) (outputLen : Nat) (mime : String)
  | probeCompleted (jobId : Nat)
  | error (jobId : Nat) (code : FFmpegErrorCode) (message : String)
  | cancelled (jobId : Nat)
deriving DecidableEq

/-- Environment of one `handleTrim` run: the outcome of each awaited IO
step and the value of the (asynchronously settable) `cancelRequested`
flag at each of the points where the handler reads it. -/
structure TrimRunEnv where
  loadOk : Bool
  cancelAfterLoad : Bool
  writeOk : Bool
  cancelAfterWrite : Bool
  execOk : Bool
  cancelAfterExec : Bool
  readOk : Bool
  outputLen : Nat
  cancelAtCatch : Bool
deriving DecidableEq

/-- Mime chosen for the output container, from the handlers. -/
def mimeFor (outputFormat : String) : String :=
  if outputFormat = "webm" then "video/webm" else "video/mp4"

/-- Messages posted on the catch path of `handleTrim` / `handleBurnin`:
after cleanup, `cancelled` if `cancelRequested` is set, otherwise an
`OUTPUT_ERROR` error with the handler's message. -/
def catchMsgs (jobId : Nat) (env_cancelAtCatch : Bool) (message : String) :
    List WMsg :=
  if env_cancelAtCatch then [.cancelled jobId]
  else [.error jobId .OUTPUT_ERROR message]

/-- `handleTrim` of the current worker as the list of messages it posts,
given the run environment.  Mirrors the source control flow: progress
0.05, load, cancel check, progress 0.1, fetch+write input, cancel check,
progress 0.2, exec, cancel check, progress 0.9, read output, empty-output
check (throw into the catch path when the read-back length is zero),
progress 1, completed.  Engine-originated progress events during exec are
not modelled. -/
def handleTrim (jobId : Nat) (outputFormat : String) (env : TrimRunEnv) :
    List WMsg :=
  let errMsgs := catchMsgs jobId env.cancelAtCatch "영상 트림 중 오류가 발생했습니다."
  [WMsg.progress jobId 5 "initializing"] ++
  if !env.loadOk then errMsgs
  else if env.cancelAfterLoad then [.cancelled jobId]
  else [WMsg.progress jobId 10 "loading input"] ++
    if !env.writeOk then errMsgs
    else if env.cancelAfterWrite then [.cancelled jobId]
    else [WMsg.progress jobId 20 "encoding"] ++
      if !env.execOk then errMsgs
      else if env.cancelAfterExec then [.cancelled jobId]
      else [WMsg.progress jobId 90 "reading output"] ++
        if !env.readOk then errMsgs
        else if env.outputLen = 0 then errMsgs
        else [WMsg.progress jobId 100 "complete",
              WMsg.completed jobId env.outputLen (mimeFor outputFormat)]

/-- Environment of one `handleBurnin` run: as for trim, plus whether the
subtitle font could be made available. -/
structure BurninRunEnv where
  loadOk : Bool
  cancelAfterLoad : Bool
  writeOk : Bool
  cancelAfterWrite : Bool
  fontOk : Bool
  execOk : Bool
  cancelAfterExec : Bool
  readOk : Bool
  outputLen : Nat
  cancelAtCatch : Bool
deriving DecidableEq

/-- `handleBurnin` of the current worker as the list of messages it
posts.  Control flow: progress 0.05, load, cancel check, progress 0.1,
fetch+write input, cancel check, font availability (throw when missing),
progress 0.2, exec, cancel check, progress 0.9, read output, empty-output
check, progress 1, completed. -/
def handleBurnin (jobId : Nat) (outputFormat : String) (env : BurninRunEnv) :
    List WMsg :=
  let errMsgs := catchMsgs jobId env.cancelAtCatch "자막 번인 중 오류가 발생했습니다."
  [WMsg.progress jobId 5 "initializing"] ++
  if !env.loadOk then errMsgs
  else if env.cancelAfterLoad then [.cancelled jobId]
  else [WMsg.progress jobId 10 "loading input"] ++
    if !env.writeOk then errMsgs
    else if env.cancelAfterWrite then [.cancelled jobId]
    else if !env.fontOk then errMsgs
    else [WMsg.progress jobId 20 "encoding"] ++
      if !env.execOk then errMsgs
      else if env.cancelAfterExec then [.cancelled jobId]
      else [WMsg.progress jobId 90 "reading output"] ++
        if !env.readOk then errMsgs
        else if env.outputLen = 0 then errMsgs
        else [WMsg.progress jobId 100 "complete",
              WMsg.completed jobId env.outputLen (mimeFor outputFormat)]

/-- Worker-side mutable state relevant to cancellation:
`currentJobId` and the cooperative `cancelRequested` flag. -/
structure WorkerState where
  currentJobId : Option Nat
  cancelRequested : Bool
deriving DecidableEq

/-- `handleCancel` of the current worker: a cancel request sets the
cooperative flag only when its job id equals the worker's current job id;
otherwise it returns without touching any state. -/
def handleCancel (w : WorkerState) (jobId : Nat) : WorkerState :=
  if w.currentJobId = some jobId then { w with cancelRequested := true } else w

end FFmpegWorker

/-! ## FFmpeg worker, legacy revision -/

namespace FFmpegWorkerLegacy

/-- `handleTrim` of the legacy worker revision as the list of messages it
posts.  Identical checkpoint structure to the current worker's trim
handler but with no empty-output check after reading back the produced
bytes: the read-back data is sent as `completed` whatever its length. -/
def handleTrim (jobId : Nat) (outputFormat : String)
    (env : FFmpegWorker.TrimRunEnv) : List FFmpegWorker.WMsg :=
  let errMsgs := FFmpegWorker.catchMsgs jobId env.cancelAtCatch
    "영상 트림 중 오류가 발생했습니다."
  [FFmpegWorker.WMsg.progress jobId 5 "initializing"] ++
  if !env.loadOk then errMsgs
  else if env.cancelAfterLoad then [.cancelled jobId]
  else [FFmpegWorker.WMsg.progress jobId 10 "loading input"] ++
    if !env.writeOk then errMsgs
    else if env.cancelAfterWrite then [.cancelled jobId]
    else [FFmpegWorker.WMsg.progress jobId 20 "encoding"] ++
      if !env.execOk then errMsgs
      else if env.cancelAfterExec then [.cancelled jobId]
      else [FFmpegWorker.WMsg.progress jobId 90 "reading output"] ++
        if !env.readOk then errMsgs
        else [FFmpegWorker.WMsg.progress jobId 100 "complete",
              FFmpegWorker.WMsg.completed jobId env.outputLen
                (FFmpegWorker.mimeFor outputFormat)]

/-- `handleCancel` of the legacy worker revision; textually identical to
the current worker's. -/
def handleCancel (w : FFmpegWorker.WorkerState) (jobId : Nat) :
    FFmpegWorker.WorkerState :=
  if w.currentJobId = some jobId then { w with cancelRequested := true } else w

/-- The argument list the legacy worker's `handleTrim` passes to
`ffmpeg.exec`: the seek is passed unconditionally as
`-ss msToFFmpegTime(startMs)` (no `startMs > 0` guard) and the window
end is passed as a position argument `-to msToFFmpegTime(endMs)` (no
duration is computed); then the re-encode options and output name. -/
def trimExecArgs (startMs endMs : Nat) (outputFormat : String) :
    List String :=
  ["-i", "input.mp4",
   "-ss", FFmpegWorker.msToFFmpegTime startMs,
   "-to", FFmpegWorker.msToFFmpegTime endMs,
   "-c:v", if outputFormat = "webm" then "libvpx-vp9" else "libx264",
   "-preset", "ultrafast",
   "-crf", if outputFormat = "webm" then "30" else "23",
   "-c:a", if outputFormat = "webm" then "libvorbis" else "aac",
   "-b:a", "128k",
   "-movflags", "+faststart",
   "-y", "output." ++ outputFormat]

end FFmpegWorkerLegacy

/-! ## Recommendation-count bounds (VideoDetailPage.tsx)

`durationMs = 0` embeds the falsy / non-positive duration case. -/

/-- `recommendationSegmentMs` of the video detail page: 4000 when the
duration is unknown or non-positive, otherwise `Math.round(duration / 6)`
clamped to `[1000, 8000]`.  `Math.round(d / 6) = (d + 3) / 6` in Nat
division. -/
def recommendationSegmentMs (durationMs : Nat) : Nat :=
  if durationMs = 0 then 4000
  else max 1000 (min 8000 ((durationMs + 3) / 6))

/-- `maxRecommendCount` of the video detail page: 1 when the duration is
unknown or non-positive, otherwise
`max(1, min(5, max(1, floor(duration / segment))))`. -/
def maxRecommendCount (durationMs : Nat) : Nat :=
  if durationMs = 0 then 1
  else max 1 (min 5 (max 1 (durationMs / recommendationSegmentMs durationMs)))

/-- The `setRecommendCount` effect of the video detail page: a requested
count is clamped into `[1, maxRecommendCount]`
(`Math.min(Math.max(1, prev), maxRecommendCount)`). -/
def clampRecommendCount (requested durationMs : Nat) : Nat :=
  min (max 1 requested) (maxRecommendCount durationMs)

/-! ## Export controller dispatch (useVideoExport.startExport) -/

namespace UseVideoExport

/-- The branch taken by `startExport` together with the data that branch
carries.  `completedPassthrough` records the state set by the trivial
export: output blob, progress, elapsed time.  The two `invoke` branches
are the engine invocations. -/
inductive ExportAction where
  | notReadyError
  | invokeBurnin (startMs : Nat) (endMs : Option Nat)
  | invokeTrim (startMs endMs : Nat)
  | completedPassthrough (outputBlob : Nat) (progress : Nat) (elapsedMs : Nat)
deriving DecidableEq

/-- The inputs of `startExport` that determine its branch.  Blobs are
abstracted to tokens (`videoBlob : Nat`); only the length of the caption
list matters to the dispatch. -/
structure ExportOptions where
  videoBlob : Nat
  trimRange : Option (Nat × Nat)
  captionCount : Nat
  includeSubtitles : Bool
deriving DecidableEq

/-- The dispatch decision of `startExport` (identical in both controller
revisions): fail fast when the worker is not ready; burn-in when
subtitles are included and captions exist (with the trim window only when
`endMs > startMs`); plain trim when only a proper trim window is present;
otherwise complete immediately, passing the input blob through with
progress 1 and zero elapsed time. -/
def startExport (ready : Bool) (opts : ExportOptions) : ExportAction :=
  if !ready then .notReadyError
  else
    let startMs := (opts.trimRange.map Prod.fst).getD 0
    let endMs := (opts.trimRange.map Prod.snd).getD 0
    let hasTrim := opts.trimRange.isSome && decide (startMs < endMs)
    if opts.includeSubtitles && decide (0 < opts.captionCount) then
      .invokeBurnin (if hasTrim then startMs else 0)
        (if hasTrim then some endMs else none)
    else if hasTrim then .invokeTrim startMs endMs
    else .completedPassthrough opts.videoBlob 1 0

end UseVideoExport

/-! ## Caption data model and time transforms -/

/-- A word with timing (`CaptionWord`). -/
structure CaptionWord where
  text : String
  startMs : Int
  endMs : Int
deriving DecidableEq

/-- A caption (`Caption`); `words` mirrors the optional `words?` field. -/
structure Caption where
  id : String
  startMs : Int
  endMs : Int
  text : String
  words : Option (List CaptionWord)
deriving DecidableEq

/-- Split a character list on spaces, accumulating the current token in
reverse; empty tokens are dropped. -/
def tokenizeAux : List Char → List Char → List String
  | [], acc => if acc.isEmpty then [] else [String.mk acc.reverse]
  | ch :: rest, acc =>
    if ch = ' ' then
      if acc.isEmpty then tokenizeAux rest []
      else String.mk acc.reverse :: tokenizeAux rest []
    else tokenizeAux rest (ch :: acc)

/-- Whitespace tokenization of a caption text (split on spaces, dropping
empty tokens). -/
def tokenizeWords (s : String) : List String :=
  tokenizeAux s.toList []

/-- Modelled from the spec: the module `wordHighlight` that defines the
even-subdivision synthesis of word timings is not present under src.  Per
the spec (section 3, Word): when word timings are absent they are
synthesized by even subdivision of the caption's text-token count across
its time span.  Token `i` of `n` spans
`[startMs + span*i/n, startMs + span*(i+1)/n)`. -/
def synthesizeWordTimings (c : Caption) : List CaptionWord :=
  let tokens := tokenizeWords c.text
  let n : Int := tokens.length
  let span := c.endMs - c.startMs
  tokens.enum.map (fun p =>
    { text := p.2,
      startMs := c.startMs + span * (p.1 : Int) / n,
      endMs := c.startMs + span * ((p.1 : Int) + 1) / n })

/-- Modelled from the spec: `computeFallbackWordTimings` (module
`wordHighlight`, missing from src) returns the caption's own word list
when present and non-empty, and otherwise the synthesized fallback
timings. -/
def computeFallbackWordTimings (c : Caption) : List CaptionWord :=
  match c.words with
  | some ws => if ws.length = 0 then synthesizeWordTimings c else ws
  | none => synthesizeWordTimings c

/-- Join word texts with single spaces (`words.map(w => w.text).join(' ')`). -/
def joinWordTexts (ws : List CaptionWord) : String :=
  String.intercalate " " (ws.map (fun w => w.text))

namespace CaptionOps

/-- `splitCaptionNext` of captionOps.ts.  `freshId` stands for the id
produced by `makeCaptionId()`.  Boundary indices give `null`.  The first
caption ends at the split word's start; the second starts one millisecond
after it and ends at `max(secondStart + 10, caption.endMs)`. -/
def splitCaptionNext (c : Caption) (wordIndex : Nat) (freshId : String) :
    Option (Caption × Caption) :=
  if wordIndex = 0 ∨ (computeFallbackWordTimings c).length ≤ wordIndex then
    none
  else
    match (computeFallbackWordTimings c).take wordIndex,
          (computeFallbackWordTimings c).drop wordIndex with
    | _, [] => none
    | [], _ => none
    | headWords, w :: tailRest =>
      some
        ({ c with
            endMs := w.startMs,
            text := joinWordTexts headWords,
            words := some headWords },
         { c with
            id := freshId,
            startMs := w.startMs + 1,
            endMs := max (w.startMs + 1 + 10) c.endMs,
            text := joinWordTexts (w :: tailRest),
            words := some (w :: tailRest) })

end CaptionOps

namespace CaptionQueries

/-- `splitCaptionNext` of the caption module revision bundled in
queries.ts.  As in captionOps.ts but the first caption's end is floored
at `caption.startMs + 10` and the second caption starts exactly at the
split word's start. -/
def splitCaptionNext (c : Caption) (wordIndex : Nat) (freshId : String) :
    Option (Caption × Caption) :=
  if wordIndex = 0 ∨ (computeFallbackWordTimings c).length ≤ wordIndex then
    none
  else
    match (computeFallbackWordTimings c).take wordIndex,
          (computeFallbackWordTimings c).drop wordIndex with
    | _, [] => none
    | [], _ => none
    | headWords, w :: tailRest =>
      some
        ({ c with
            endMs := max w.startMs (c.startMs + 10),
            text := joinWordTexts headWords,
            words := some headWords },
         { c with
            id := freshId,
            startMs := w.startMs,
            endMs := max (w.startMs + 10) c.endMs,
            text := joinWordTexts (w :: tailRest),
            words := some (w :: tailRest) })

end CaptionQueries

/-! ## SRT utilities (srtUtils.ts) -/

/-- `formatSrtTimecode`: `HH:MM:SS,mmm` (times are nonnegative integer
milliseconds per the data model; negative inputs are truncated to 0). -/
def formatSrtTimecode (ms : Int) : String :=
  let n := ms.toNat
  pad2 (n / 3600000) ++ ":" ++ pad2 (n % 3600000 / 60000) ++ ":" ++
    pad2 (n % 60000 / 1000) ++ "," ++ pad3 (n % 1000)

/-- Stable insertion of a caption into a list sorted by `startMs`. -/
def insertByStart (c : Caption) : List Caption → List Caption
  | [] => [c]
  | d :: rest =>
    if d.startMs ≤ c.startMs then d :: insertByStart c rest
    else c :: d :: rest

/-- Stable sort by `startMs`, modelling the JS
`sort((a, b) => a.startMs - b.startMs)` (JS sort is stable). -/
def sortByStart : List Caption → List Caption
  | [] => []
  | c :: rest => insertByStart c (sortByStart rest)

/-- `captionsToSrt`: sort by start, then render each caption as a
line-numbered SRT block, blank-line separated. -/
def captionsToSrt (captions : List Caption) : String :=
  if captions.length = 0 then ""
  else
    String.intercalate "\n\n"
      ((sortByStart captions).enum.map (fun p =>
        toString (p.1 + 1) ++ "\n" ++ formatSrtTimecode p.2.startMs ++
          " --> " ++ formatSrtTimecode p.2.endMs ++ "\n" ++ p.2.text.trim))

/-- The caption-list transformation inside `adjustSrtForTrim`: keep the
captions whose span overlaps the trim window, shift starts by
`-trimStartMs` clamped at 0, shift ends by `-trimStartMs` clamped to the
window length. -/
def adjustCaptionsForTrim (captions : List Caption)
    (trimStartMs trimEndMs : Int) : List Caption :=
  (captions.filter (fun c =>
      decide (c.startMs < trimEndMs) && decide (trimStartMs < c.endMs))).map
    (fun c =>
      { c with
          startMs := max 0 (c.startMs - trimStartMs),
          endMs := min (trimEndMs - trimStartMs) (c.endMs - trimStartMs) })

/-- `adjustSrtForTrim`: the filtered/shifted caption list rendered as
SRT. -/
def adjustSrtForTrim (captions : List Caption)
    (trimStartMs trimEndMs : Int) : String :=
  captionsToSrt (adjustCaptionsForTrim captions trimStartMs trimEndMs)

/-! ## FFmpeg client (ffmpegClient.ts)

The client is embedded as a small-step state machine.  The job table
`jobCallbacks` is an association list from job id to the timeout duration
armed for that job (an entry's presence stands for the registered
resolve/reject callbacks and the live timer; `cleanupJob` clears the
timer and deletes the entry together, and a cleared timer can no longer
fire in the single-threaded event loop, so timer liveness coincides with
entry presence).  Promise settlements and messages posted to the worker
are explicit outputs. -/

namespace FFmpegClient

/-- `DEFAULT_TIMEOUT_MS` of ffmpegClient.ts. -/
def DEFAULT_TIMEOUT_MS : Nat := 5 * 60 * 1000

/-- Job kinds a start request can carry. -/
inductive JobKind where
  | trim
  | burnin
  | probe
deriving DecidableEq

/-- How a job's caller-visible promise settles. -/
inductive SettleOutcome where
  | resolved (outputLen : Nat)
  | probeResolved
  | rejected (code : FFmpegErrorCode)
deriving DecidableEq

/-- Messages the client posts to the worker. -/
inductive WorkerRequest where
  | jobReq (kind : JobKind) (jobId : Nat)
  | cancelReq (jobId : Nat)
deriving DecidableEq

/-- Observable outputs of one client step. -/
inductive COut where
  | settle (jobId : Nat) (outcome : SettleOutcome)
  | startRejected (jobId : Nat) (code : FFmpegErrorCode)
  | post (msg : WorkerRequest)
  | progressCb (jobId : Nat) (pct : Nat)
deriving DecidableEq

/-- The client's mutable state: the `state` record of ffmpegClient.ts
plus the `jobCallbacks` table (job id ↦ armed timeout duration in ms). -/
structure ClientState where
  isInitialized : Bool
  workerAlive : Bool
  currentJobId : Option Nat
  jobTable : List (Nat × Nat)
deriving DecidableEq

/-- Events the client reacts to: a `startJob` call (with the caller's
optional `timeoutMs` and the freshly generated job id), the worker
messages handled by `handleWorkerMessage`, the firing of a job's local
timeout, a worker error event, and a `cancelCurrentJob` call. -/
inductive CEvent where
  | start (kind : JobKind) (timeoutMs : Option Nat) (newId : Nat)
  | wready
  | wprogress (jobId : Nat) (pct : Nat)
  | wcompleted (jobId : Nat) (outputLen : Nat)
  | wprobeCompleted (jobId : Nat)
  | werror (jobId : Nat) (code : FFmpegErrorCode)
  | wcancelled (jobId : Nat)
  | timeoutFire (jobId : Nat)
  | workerError
  | cancelCall
deriving DecidableEq

/-- Lookup of a job's table entry (`jobCallbacks.get`). -/
def findJob (j : Nat) : List (Nat × Nat) → Option Nat
  | [] => none
  | (k, v) :: rest => if k = j then some v else findJob j rest

/-- Number of table entries keyed by `j` (a `Map` holds at most one). -/
def keyCount (j : Nat) : List (Nat × Nat) → Nat
  | [] => 0
  | (k, _) :: rest => (if k = j then 1 else 0) + keyCount j rest

/-- Deletion of a job's entry (`jobCallbacks.delete`; removes every
occurrence, matching Map semantics where at most one exists). -/
def eraseJob (j : Nat) : List (Nat × Nat) → List (Nat × Nat)
  | [] => []
  | (k, v) :: rest =>
    if k = j then eraseJob j rest else (k, v) :: eraseJob j rest

/-- `cleanupJob` of ffmpegClient.ts: clear the job's timer, delete its
callback entry, and clear `currentJobId` when it matches. -/
def cleanupJob (j : Nat) (s : ClientState) : ClientState :=
  { s with
      jobTable := eraseJob j s.jobTable,
      currentJobId :=
        if s.currentJobId = some j then none else s.currentJobId }

/-- One step of the client.  `start` mirrors `startJob` (the NOT_READY
and single-concurrency guards, then registration, timer arming and
posting); the worker-message events mirror `handleWorkerMessage`;
`timeoutFire` mirrors the timer callback (it only runs while the job's
entry — hence its timer — is still live); `workerError` mirrors
`handleWorkerError`; `cancelCall` mirrors `cancelCurrentJob`. -/
def stepClient (s : ClientState) (e : CEvent) : ClientState × List COut :=
  match e with
  | .start kind timeoutMs newId =>
    if !(s.isInitialized && s.workerAlive) then
      (s, [.startRejected newId .NOT_READY])
    else if s.currentJobId.isSome then
      (s, [.startRejected newId .INVALID_ARGS])
    else
      let t := timeoutMs.getD DEFAULT_TIMEOUT_MS
      ({ s with
          currentJobId := some newId,
          jobTable := (newId, t) :: s.jobTable },
       [.post (.jobReq kind newId)])
  | .wready => (s, [])
  | .wprogress j pct =>
    match findJob j s.jobTable with
    | some _ => (s, [.progressCb j pct])
    | none => (s, [])
  | .wcompleted j len =>
    match findJob j s.jobTable with
    | some _ => (cleanupJob j s, [.settle j (.resolved len)])
    | none => (s, [])
  | .wprobeCompleted j =>
    match findJob j s.jobTable with
    | some _ => (cleanupJob j s, [.settle j .probeResolved])
    | none => (s, [])
  | .werror j code =>
    match findJob j s.jobTable with
    | some _ => (cleanupJob j s, [.settle j (.rejected code)])
    | none => (s, [])
  | .wcancelled j =>
    match findJob j s.jobTable with
    | some _ => (cleanupJob j s, [.settle j (.rejected .CANCELLED)])
    | none => (s, [])
  | .timeoutFire j =>
    match findJob j s.jobTable with
    | some _ =>
      (cleanupJob j s,
       [.settle j (.rejected .TIMEOUT), .post (.cancelReq j)])
    | none => (s, [])
  | .workerError =>
    ({ isInitialized := false,
       workerAlive := false,
       currentJobId :=
         match s.currentJobId with
         | some j => if (findJob j s.jobTable).isSome then none else some j
         | none => none,
       jobTable := [] },
     s.jobTable.map (fun ent => COut.settle ent.1 (.rejected .UNKNOWN)))
  | .cancelCall =>
    match s.currentJobId with
    | some j => if s.workerAlive then (s, [.post (.cancelReq j)]) else (s, [])
    | none => (s, [])

/-- Run the client over a list of events, collecting outputs in order. -/
def runClient (s : ClientState) : List CEvent → ClientState × List COut
  | [] => (s, [])
  | e :: rest =>
    let (s1, out1) := stepClient s e
    let (s2, out2) := runClient s1 rest
    (s2, out1 ++ out2)

/-- Number of promise settlements for job `j` in an output list. -/
def countSettles (j : Nat) : List COut → Nat
  | [] => 0
  | o :: rest =>
    (match o with
     | .settle i _ => if i = j then 1 else 0
     | _ => 0) + countSettles j rest

/-- Whether an event is a `startJob` call generating id `j`. -/
def isStartFor (j : Nat) : CEvent → Bool
  | .start _ _ n => n == j
  | _ => false

/-- Whether an event carries job id `j` (a worker message or a local
timeout for that id). -/
def carriesJob (j : Nat) : CEvent → Bool
  | .wprogress i _ => i == j
  | .wcompleted i _ => i == j
  | .wprobeCompleted i => i == j
  | .werror i _ => i == j
  | .wcancelled i => i == j
  | .timeoutFire i => i == j
  | _ => false

/-- Whether an event is a terminal signal for job `j`: completed,
probe-completed, error, cancelled or local timeout for `j`, or a worker
crash (which terminates every in-flight job). -/
def terminalForJob (j : Nat) : CEvent → Bool
  | .wcompleted i _ => i == j
  | .wprobeCompleted i => i == j
  | .werror i _ => i == j
  | .wcancelled i => i == j
  | .timeoutFire i => i == j
  | .workerError => true
  | _ => false

end FFmpegClient

/-! ## Helper lemmas about the client job table and output traces -/

namespace FFmpegClient

theorem keyCount_eraseJob_self (j : Nat) (tbl : List (Nat × Nat)) :
    keyCount j (eraseJob j tbl) = 0 := by
  induction tbl with
  | nil => rfl
  | cons hd t ih =>
    rcases hd with ⟨k, v⟩
    by_cases hk : k = j <;> simp [eraseJob, keyCount, hk, ih]

theorem keyCount_eraseJob_ne {i j : Nat} (h : i ≠ j)
    (tbl : List (Nat × Nat)) : keyCount j (eraseJob i tbl) = keyCount j tbl := by
  induction tbl with
  | nil => rfl
  | cons hd t ih =>
    rcases hd with ⟨k, v⟩
    by_cases hk : k = i
    · subst hk
      simp [eraseJob, keyCount, h, ih]
    · simp [eraseJob, keyCount, hk, ih]

theorem findJob_eq_none_iff (j : Nat) (tbl : List (Nat × Nat)) :
    findJob j tbl = none ↔ keyCount j tbl = 0 := by
  induction tbl with
  | nil => simp [findJob, keyCount]
  | cons hd t ih =>
    rcases hd with ⟨k, v⟩
    by_cases hk : k = j <;> simp [findJob, keyCount, hk, ih]

theorem findJob_eraseJob_self (j : Nat) (tbl : List (Nat × Nat)) :
    findJob j (eraseJob j tbl) = none :=
  (findJob_eq_none_iff _ _).mpr (keyCount_eraseJob_self _ _)

theorem countSettles_append (j : Nat) (a b : List COut) :
    countSettles j (a ++ b) = countSettles j a + countSettles j b := by
  induction a with
  | nil => simp [countSettles]
  | cons o rest ih => simp [countSettles, ih]; omega

theorem countSettles_settleAll (j : Nat) (tbl : List (Nat × Nat)) :
    countSettles j
        (tbl.map fun ent => COut.settle ent.1 (.rejected .UNKNOWN)) =
      keyCount j tbl := by
  induction tbl with
  | nil => rfl
  | cons hd t ih =>
    rcases hd with ⟨k, v⟩
    simp [countSettles, keyCount, ih]

theorem stepClient_nonterminal (s : ClientState) (e : CEvent) (j : Nat)
    (ht : terminalForJob j e = false) (hs : isStartFor j e = false) :
    keyCount j ((stepClient s e).1).jobTable = keyCount j s.jobTable ∧
    countSettles j (stepClient s e).2 = 0 := by
  cases e with
  | start k tMs n =>
    have hn : n ≠ j := by simpa [isStartFor] using hs
    by_cases h1 : (s.isInitialized && s.workerAlive) = true
    · by_cases h2 : s.currentJobId.isSome = true
      · simp [stepClient, h1, h2, countSettles]
      · simp [stepClient, h1, h2, countSettles, keyCount, hn]
    · simp [stepClient, h1, countSettles]
  | wready => simp [stepClient, countSettles]
  | wprogress i p =>
    rcases hf : findJob i s.jobTable with _ | t <;>
      simp [stepClient, hf, countSettles]
  | wcompleted i len =>
    have hij : i ≠ j := by simpa [terminalForJob] using ht
    rcases hf : findJob i s.jobTable with _ | t <;>
      simp [stepClient, hf, countSettles, cleanupJob,
        keyCount_eraseJob_ne hij, hij]
  | wprobeCompleted i =>
    have hij : i ≠ j := by simpa [terminalForJob] using ht
    rcases hf : findJob i s.jobTable with _ | t <;>
      simp [stepClient, hf, countSettles, cleanupJob,
        keyCount_eraseJob_ne hij, hij]
  | werror i code =>
    have hij : i ≠ j := by simpa [terminalForJob] using ht
    rcases hf : findJob i s.jobTable with _ | t <;>
      simp [stepClient, hf, countSettles, cleanupJob,
        keyCount_eraseJob_ne hij, hij]
  | wcancelled i =>
    have hij : i ≠ j := by simpa [terminalForJob] using ht
    rcases hf : findJob i s.jobTable with _ | t <;>
      simp [stepClient, hf, countSettles, cleanupJob,
        keyCount_eraseJob_ne hij, hij]
  | timeoutFire i =>
    have hij : i ≠ j := by simpa [terminalForJob] using ht
    rcases hf : findJob i s.jobTable with _ | t <;>
      simp [stepClient, hf, countSettles, cleanupJob,
        keyCount_eraseJob_ne hij, hij]
  | workerError => exact absurd ht (by simp [terminalForJob])
  | cancelCall =>
    rcases hc : s.currentJobId with _ | jj
    · simp [stepClient, hc, countSettles]
    · by_cases hw : s.workerAlive = true <;>
        simp [stepClient, hc, hw, countSettles]

theorem stepClient_terminal_one (s : ClientState) (e : CEvent) (j : Nat)
    (ht : terminalForJob j e = true) (hk : keyCount j s.jobTable = 1) :
    countSettles j (stepClient s e).2 = 1 ∧
    keyCount j ((stepClient s e).1).jobTable = 0 := by
  have hfind : findJob j s.jobTable ≠ none := by
    intro hcon
    rw [findJob_eq_none_iff] at hcon
    omega
  cases e with
  | start k tMs n => exact absurd ht (by simp [terminalForJob])
  | wready => exact absurd ht (by simp [terminalForJob])
  | wprogress i p => exact absurd ht (by simp [terminalForJob])
  | wcompleted i len =>
    have hij : i = j := by simpa [terminalForJob] using ht
    subst hij
    rcases hf : findJob i s.jobTable with _ | t
    · exact absurd hf hfind
    · simp [stepClient, hf, countSettles, cleanupJob, keyCount_eraseJob_self]
  | wprobeCompleted i =>
    have hij : i = j := by simpa [terminalForJob] using ht
    subst hij
    rcases hf : findJob i s.jobTable with _ | t
    · exact absurd hf hfind
    · simp [stepClient, hf, countSettles, cleanupJob, keyCount_eraseJob_self]
  | werror i code =>
    have hij : i = j := by simpa [terminalForJob] using ht
    subst hij
    rcases hf : findJob i s.jobTable with _ | t
    · exact absurd hf hfind
    · simp [stepClient, hf, countSettles, cleanupJob, keyCount_eraseJob_self]
  | wcancelled i =>
    have hij : i = j := by simpa [terminalForJob] using ht
    subst hij
    rcases hf : findJob i s.jobTable with _ | t
    · exact absurd hf hfind
    · simp [stepClient, hf, countSettles, cleanupJob, keyCount_eraseJob_self]
  | timeoutFire i =>
    have hij : i = j := by simpa [terminalForJob] using ht
    subst hij
    rcases hf : findJob i s.jobTable with _ | t
    · exact absurd hf hfind
    · simp [stepClient, hf, countSettles, cleanupJob, keyCount_eraseJob_self]
  | workerError =>
    simp [stepClient, countSettles_settleAll, hk, keyCount]
  | cancelCall => exact absurd ht (by simp [terminalForJob])

theorem stepClient_absent (s : ClientState) (e : CEvent) (j : Nat)
    (hs : isStartFor j e = false) (hk : keyCount j s.jobTable = 0) :
    countSettles j (stepClient s e).2 = 0 ∧
    keyCount j ((stepClient s e).1).jobTable = 0 := by
  have hf0 : findJob j s.jobTable = none := (findJob_eq_none_iff _ _).mpr hk
  cases e with
  | start k tMs n =>
    have hn : n ≠ j := by simpa [isStartFor] using hs
    by_cases h1 : (s.isInitialized && s.workerAlive) = true
    · by_cases h2 : s.currentJobId.isSome = true
      · simp [stepClient, h1, h2, countSettles, hk]
      · simp [stepClient, h1, h2, countSettles, keyCount, hn, hk]
    · simp [stepClient, h1, countSettles, hk]
  | wready => simp [stepClient, countSettles, hk]
  | wprogress i p =>
    by_cases hij : i = j
    · subst hij
      simp [stepClient, hf0, countSettles, hk]
    · rcases hf : findJob i s.jobTable with _ | t <;>
        simp [stepClient, hf, countSettles, hk]
  | wcompleted i len =>
    by_cases hij : i = j
    · subst hij
      simp [stepClient, hf0, countSettles, hk]
    · rcases hf : findJob i s.jobTable with _ | t <;>
        simp [stepClient, hf, countSettles, cleanupJob,
          keyCount_eraseJob_ne hij, hij, hk]
  | wprobeCompleted i =>
    by_cases hij : i = j
    · subst hij
      simp [stepClient, hf0, countSettles, hk]
    · rcases hf : findJob i s.jobTable with _ | t <;>
        simp [stepClient, hf, countSettles, cleanupJob,
          keyCount_eraseJob_ne hij, hij, hk]
  | werror i code =>
    by_cases hij : i = j
    · subst hij
      simp [stepClient, hf0, countSettles, hk]
    · rcases hf : findJob i s.jobTable with _ | t <;>
        simp [stepClient, hf, countSettles, cleanupJob,
          keyCount_eraseJob_ne hij, hij, hk]
  | wcancelled i =>
    by_cases hij : i = j
    · subst hij
      simp [stepClient, hf0, countSettles, hk]
    · rcases hf : findJob i s.jobTable with _ | t <;>
        simp [stepClient, hf, countSettles, cleanupJob,
          keyCount_eraseJob_ne hij, hij, hk]
  | timeoutFire i =>
    by_cases hij : i = j
    · subst hij
      simp [stepClient, hf0, countSettles, hk]
    · rcases hf : findJob i s.jobTable with _ | t <;>
        simp [stepClient, hf, countSettles, cleanupJob,
          keyCount_eraseJob_ne hij, hij, hk]
  | workerError =>
    simp [stepClient, countSettles_settleAll, hk, keyCount]
  | cancelCall =>
    rcases hc : s.currentJobId with _ | jj
    · simp [stepClient, hc, countSettles, hk]
    · by_cases hw : s.workerAlive = true <;>
        simp [stepClient, hc, hw, countSettles, hk]

theorem stepClient_noop_absent (s : ClientState) (e : CEvent) (j : Nat)
    (hc : carriesJob j e = true) (hk : keyCount j s.jobTable = 0) :
    stepClient s e = (s, []) := by
  have hf0 : findJob j s.jobTable = none := (findJob_eq_none_iff _ _).mpr hk
  cases e with
  | start k tMs n => exact absurd hc (by simp [carriesJob])
  | wready => exact absurd hc (by simp [carriesJob])
  | wprogress i p =>
    have hij : i = j := by simpa [carriesJob] using hc
    subst hij
    simp [stepClient, hf0]
  | wcompleted i len =>
    have hij : i = j := by simpa [carriesJob] using hc
    subst hij
    simp [stepClient, hf0]
  | wprobeCompleted i =>
    have hij : i = j := by simpa [carriesJob] using hc
    subst hij
    simp [stepClient, hf0]
  | werror i code =>
    have hij : i = j := by simpa [carriesJob] using hc
    subst hij
    simp [stepClient, hf0]
  | wcancelled i =>
    have hij : i = j := by simpa [carriesJob] using hc
    subst hij
    simp [stepClient, hf0]
  | timeoutFire i =>
    have hij : i = j := by simpa [carriesJob] using hc
    subst hij
    simp [stepClient, hf0]
  | workerError => exact absurd hc (by simp [carriesJob])
  | cancelCall => exact absurd hc (by simp [carriesJob])

theorem runClient_absent (j : Nat) (es : List CEvent) (s : ClientState)
    (hs : es.all (fun e => !isStartFor j e) = true)
    (hk : keyCount j s.jobTable = 0) :
    countSettles j (runClient s es).2 = 0 ∧
    keyCount j ((runClient s es).1).jobTable = 0 := by
  induction es generalizing s with
  | nil => simpa [runClient, countSettles] using hk
  | cons e rest ih =>
    rw [List.all_cons, Bool.and_eq_true] at hs
    obtain ⟨ha, hb⟩ := hs
    have ha' : isStartFor j e = false := by simpa using ha
    have hstep := stepClient_absent s e j ha' hk
    rcases hp : stepClient s e with ⟨s1, o1⟩
    rw [hp] at hstep
    have hrest := ih s1 hb hstep.2
    simp only [runClient, hp]
    rcases hq : runClient s1 rest with ⟨s2, o2⟩
    rw [hq] at hrest
    simp only [countSettles_append]
    refine ⟨?_, by simpa using hrest.2⟩
    have h1 : countSettles j o1 = 0 := by simpa using hstep.1
    have h2 : countSettles j o2 = 0 := by simpa using hrest.1
    omega

theorem runClient_present (j : Nat) (es : List CEvent) (s : ClientState)
    (hs : es.all (fun e => !isStartFor j e) = true)
    (hk : keyCount j s.jobTable = 1)
    (hterm : es.any (terminalForJob j) = true) :
    countSettles j (runClient s es).2 = 1 ∧
    keyCount j ((runClient s es).1).jobTable = 0 := by
  induction es generalizing s with
  | nil => simp at hterm
  | cons e rest ih =>
    rw [List.all_cons, Bool.and_eq_true] at hs
    obtain ⟨ha, hb⟩ := hs
    have ha' : isStartFor j e = false := by simpa using ha
    by_cases hte : terminalForJob j e = true
    · have hstep := stepClient_terminal_one s e j hte hk
      rcases hp : stepClient s e with ⟨s1, o1⟩
      rw [hp] at hstep
      have hrest := runClient_absent j rest s1 hb (by simpa using hstep.2)
      simp only [runClient, hp]
      rcases hq : runClient s1 rest with ⟨s2, o2⟩
      rw [hq] at hrest
      simp only [countSettles_append]
      refine ⟨?_, by simpa using hrest.2⟩
      have h1 : countSettles j o1 = 1 := by simpa using hstep.1
      have h2 : countSettles j o2 = 0 := by simpa using hrest.1
      omega
    · have hte' : terminalForJob j e = false := by
        simpa using hte
      have hterm' : rest.any (terminalForJob j) = true := by
        rw [List.any_cons, Bool.or_eq_true] at hterm
        rcases hterm with h | h
        · exact absurd h hte
        · exact h
      have hstep := stepClient_nonterminal s e j hte' ha'
      rcases hp : stepClient s e with ⟨s1, o1⟩
      rw [hp] at hstep
      have hk1 : keyCount j s1.jobTable = 1 := by
        have := hstep.1
        simpa [hk] using this
      have hrest := ih s1 hb hk1 hterm'
      simp only [runClient, hp]
      rcases hq : runClient s1 rest with ⟨s2, o2⟩
      rw [hq] at hrest
      simp only [countSettles_append]
      refine ⟨?_, by simpa using hrest.2⟩
      have h1 : countSettles j o1 = 0 := by simpa using hstep.2
      have h2 : countSettles j o2 = 1 := by simpa using hrest.1
      omega

end FFmpegClient

/-! ## Claim theorems -/

/-- C10: a cancel request whose job id differs from the worker's current
job id (including when no job is running) leaves the worker state
unchanged in both worker revisions: the cancellation flag keeps its
value, the current job keeps running, so a stale cancel issued for an
earlier job can never cancel a subsequently started job. -/
theorem claim_C10_stale_cancel_noop (w : FFmpegWorker.WorkerState) (j : Nat)
    (h : w.currentJobId ≠ some j) :
    FFmpegWorker.handleCancel w j = w ∧
    FFmpegWorkerLegacy.handleCancel w j = w ∧
    (FFmpegWorker.handleCancel w j).cancelRequested = w.cancelRequested ∧
    (FFmpegWorker.handleCancel w j).currentJobId = w.currentJobId := by
  unfold FFmpegWorker.handleCancel FFmpegWorkerLegacy.handleCancel
  simp [h]

/-- Witness for C10 at a worker running job 3 receiving a cancel for
job 7. -/
theorem claim_C10_stale_cancel_noop_witness :
    ((⟨some 3, false⟩ : FFmpegWorker.WorkerState).currentJobId ≠ some 7) ∧
    (FFmpegWorker.handleCancel ⟨some 3, false⟩ 7 =
        (⟨some 3, false⟩ : FFmpegWorker.WorkerState) ∧
      FFmpegWorkerLegacy.handleCancel ⟨some 3, false⟩ 7 =
        (⟨some 3, false⟩ : FFmpegWorker.WorkerState) ∧
      (FFmpegWorker.handleCancel ⟨some 3, false⟩ 7).cancelRequested =
        (⟨some 3, false⟩ : FFmpegWorker.WorkerState).cancelRequested ∧
      (FFmpegWorker.handleCancel ⟨some 3, false⟩ 7).currentJobId =
        (⟨some 3, false⟩ : FFmpegWorker.WorkerState).currentJobId) :=
  ⟨by decide, claim_C10_stale_cancel_noop ⟨some 3, false⟩ 7 (by decide)⟩

/-- C9: when the worker is ready and the options imply neither trimming
(no trim range with `endMs > startMs`) nor subtitle inclusion (subtitles
disabled or no captions), `startExport` goes straight to the completed
pass-through carrying the original input blob, progress 1 and zero
elapsed time — not to an engine-invoking branch. -/
theorem claim_C9_trivial_export_passthrough
    (opts : UseVideoExport.ExportOptions)
    (hsub : opts.includeSubtitles = false ∨ opts.captionCount = 0)
    (htrim : ∀ p : Nat × Nat, opts.trimRange = some p → p.2 ≤ p.1) :
    UseVideoExport.startExport true opts =
      .completedPassthrough opts.videoBlob 1 0 := by
  unfold UseVideoExport.startExport
  rcases htr : opts.trimRange with _ | p
  · rcases hsub with h | h <;> simp [htr, h]
  · have hp := htrim p htr
    have hlt : ¬ (p.1 < p.2) := by omega
    rcases hsub with h | h <;> simp [htr, h, hlt]

/-- Witness for C9: subtitles nominally enabled but no captions and no
trim range. -/
theorem claim_C9_trivial_export_passthrough_witness :
    ((⟨42, none, 0, true⟩ : UseVideoExport.ExportOptions).includeSubtitles =
        false ∨
      (⟨42, none, 0, true⟩ : UseVideoExport.ExportOptions).captionCount = 0) ∧
    UseVideoExport.startExport true ⟨42, none, 0, true⟩ =
      .completedPassthrough 42 1 0 :=
  ⟨Or.inr rfl,
   claim_C9_trivial_export_passthrough ⟨42, none, 0, true⟩ (Or.inr rfl)
     (by intro p hp; cases hp)⟩

/-- C8 counterexample: at duration 500 ms the page derives a segment
length of 1000 ms, so the claimed bound
`min 5 (floor(duration / segment))` is 0, yet `maxRecommendCount` is 1
and a request of 3 is reduced to 1, exceeding the claimed bound. -/
theorem claim_C8_counterexample :
    maxRecommendCount 500 = 1 ∧
    min 5 (500 / recommendationSegmentMs 500) = 0 ∧
    clampRecommendCount 3 500 = 1 := by decide

/-- C8 (amended): for a positive duration the requestable recommendation
count is bounded by `floor(duration / targetSegmentMs)` clamped to the
range `[1, 5]` (not merely capped at 5: the bound never drops below 1),
and a requested count above this bound is silently reduced to the bound
rather than rejected. -/
theorem claim_C8_recommend_count_bound (d r : Nat) (hd : d ≠ 0) :
    maxRecommendCount d =
      max 1 (min 5 (d / recommendationSegmentMs d)) ∧
    clampRecommendCount r d ≤ maxRecommendCount d ∧
    (maxRecommendCount d ≤ r →
      clampRecommendCount r d = maxRecommendCount d) := by
  have hmax : maxRecommendCount d =
      max 1 (min 5 (d / recommendationSegmentMs d)) := by
    unfold maxRecommendCount
    simp only [hd, if_false]
    omega
  refine ⟨hmax, ?_, fun h => ?_⟩
  · unfold clampRecommendCount
    omega
  · unfold clampRecommendCount
    rw [hmax] at h ⊢
    omega

/-- Witness for C8 at a 24-second video: the bound is 5 and a request of
9 is reduced to 5. -/
theorem claim_C8_recommend_count_bound_witness :
    (24000 ≠ 0) ∧
    (maxRecommendCount 24000 =
        max 1 (min 5 (24000 / recommendationSegmentMs 24000)) ∧
      clampRecommendCount 9 24000 ≤ maxRecommendCount 24000 ∧
      (maxRecommendCount 24000 ≤ 9 →
        clampRecommendCount 9 24000 = maxRecommendCount 24000)) :=
  ⟨by decide, claim_C8_recommend_count_bound 24000 9 (by decide)⟩

/-- C6 counterexample: splitting the zero-width caption
`{id "c0", 0, 0, "a b"}` at word index 1 with the captionOps.ts
`splitCaptionNext` returns a first caption whose span is degenerate
(`startMs = endMs = 0`): the claimed guarantee that both resulting spans
are non-degenerate under a 10 ms floor fails for the first caption. -/
theorem claim_C6_counterexample :
    CaptionOps.splitCaptionNext ⟨"c0", 0, 0, "a b", none⟩ 1 "cap_fresh" =
      some (⟨"c0", 0, 0, "a", some [⟨"a", 0, 0⟩]⟩,
            ⟨"cap_fresh", 1, 11, "b", some [⟨"b", 0, 0⟩]⟩) ∧
    ¬ ((⟨"c0", 0, 0, "a", some [⟨"a", 0, 0⟩]⟩ : Caption).startMs <
        (⟨"c0", 0, 0, "a", some [⟨"a", 0, 0⟩]⟩ : Caption).endMs) := by
  constructor
  · decide
  · decide

/-- C6 (amended): whenever `splitCaptionNext` succeeds at an interior
word index, in the queries.ts revision both resulting spans are
non-degenerate with a 10 ms floor (even for a zero-width source span),
the first caption keeps the original id and start and the second carries
the freshly generated id; in the captionOps.ts revision the same holds
for the second caption and the ids, but the first caption's end is the
split word's start with no floor, so only the second span is guaranteed
non-degenerate. -/
theorem claim_C6_split_next_spans (c : Caption) (i : Nat) (fid : String)
    (fq sq fo so : Caption)
    (hq : CaptionQueries.splitCaptionNext c i fid = some (fq, sq))
    (ho : CaptionOps.splitCaptionNext c i fid = some (fo, so)) :
    (fq.startMs < fq.endMs ∧ sq.startMs < sq.endMs ∧
      c.startMs + 10 ≤ fq.endMs ∧ sq.startMs + 10 ≤ sq.endMs ∧
      fq.id = c.id ∧ fq.startMs = c.startMs ∧ sq.id = fid) ∧
    (so.startMs < so.endMs ∧ so.startMs + 10 ≤ so.endMs ∧
      fo.id = c.id ∧ fo.startMs = c.startMs ∧ so.id = fid) := by
  unfold CaptionQueries.splitCaptionNext at hq
  unfold CaptionOps.splitCaptionNext at ho
  constructor
  · split at hq
    · exact absurd hq (by simp)
    · split at hq
      · exact absurd hq (by simp)
      · exact absurd hq (by simp)
      · rw [Option.some_inj] at hq
        have h1 := congrArg Prod.fst hq
        have h2 := congrArg Prod.snd hq
        simp only at h1 h2
        subst h1
        subst h2
        refine ⟨?_, ?_, ?_, ?_, rfl, rfl, rfl⟩ <;> simp
  · split at ho
    · exact absurd ho (by simp)
    · split at ho
      · exact absurd ho (by simp)
      · exact absurd ho (by simp)
      · rw [Option.some_inj] at ho
        have h1 := congrArg Prod.fst ho
        have h2 := congrArg Prod.snd ho
        simp only at h1 h2
        subst h1
        subst h2
        refine ⟨?_, ?_, rfl, rfl, rfl⟩ <;> simp

/-- Witness for C6 on the caption `{0, 4000, "hello world"}` split at
word index 1 (fallback timings put the split word at 2000 ms). -/
theorem claim_C6_split_next_spans_witness :
    (CaptionQueries.splitCaptionNext ⟨"c1", 0, 4000, "hello world", none⟩ 1
        "cap_f" =
      some (⟨"c1", 0, 2000, "hello", some [⟨"hello", 0, 2000⟩]⟩,
            ⟨"cap_f", 2000, 4000, "world", some [⟨"world", 2000, 4000⟩]⟩)) ∧
    (CaptionOps.splitCaptionNext ⟨"c1", 0, 4000, "hello world", none⟩ 1
        "cap_f" =
      some (⟨"c1", 0, 2000, "hello", some [⟨"hello", 0, 2000⟩]⟩,
            ⟨"cap_f", 2001, 4000, "world", some [⟨"world", 2000, 4000⟩]⟩)) ∧
    (((⟨"c1", 0, 2000, "hello", some [⟨"hello", 0, 2000⟩]⟩ : Caption).startMs <
        (⟨"c1", 0, 2000, "hello", some [⟨"hello", 0, 2000⟩]⟩ : Caption).endMs ∧
      (⟨"cap_f", 2000, 4000, "world", some [⟨"world", 2000, 4000⟩]⟩ :
          Caption).startMs <
        (⟨"cap_f", 2000, 4000, "world", some [⟨"world", 2000, 4000⟩]⟩ :
          Caption).endMs ∧
      (⟨"c1", 0, 4000, "hello world", none⟩ : Caption).startMs + 10 ≤
        (⟨"c1", 0, 2000, "hello", some [⟨"hello", 0, 2000⟩]⟩ : Caption).endMs ∧
      (⟨"cap_f", 2000, 4000, "world", some [⟨"world", 2000, 4000⟩]⟩ :
            Caption).startMs + 10 ≤
        (⟨"cap_f", 2000, 4000, "world", some [⟨"world", 2000, 4000⟩]⟩ :
          Caption).endMs ∧
      (⟨"c1", 0, 2000, "hello", some [⟨"hello", 0, 2000⟩]⟩ : Caption).id =
        (⟨"c1", 0, 4000, "hello world", none⟩ : Caption).id ∧
      (⟨"c1", 0, 2000, "hello", some [⟨"hello", 0, 2000⟩]⟩ : Caption).startMs =
        (⟨"c1", 0, 4000, "hello world", none⟩ : Caption).startMs ∧
      (⟨"cap_f", 2000, 4000, "world", some [⟨"world", 2000, 4000⟩]⟩ :
          Caption).id = "cap_f") ∧
     ((⟨"cap_f", 2001, 4000, "world", some [⟨"world", 2000, 4000⟩]⟩ :
          Caption).startMs <
        (⟨"cap_f", 2001, 4000, "world", some [⟨"world", 2000, 4000⟩]⟩ :
          Caption).endMs ∧
      (⟨"cap_f", 2001, 4000, "world", some [⟨"world", 2000, 4000⟩]⟩ :
            Caption).startMs + 10 ≤
        (⟨"cap_f", 2001, 4000, "world", some [⟨"world", 2000, 4000⟩]⟩ :
          Caption).endMs ∧
      (⟨"c1", 0, 2000, "hello", some [⟨"hello", 0, 2000⟩]⟩ : Caption).id =
        (⟨"c1", 0, 4000, "hello world", none⟩ : Caption).id ∧
      (⟨"c1", 0, 2000, "hello", some [⟨"hello", 0, 2000⟩]⟩ : Caption).startMs =
        (⟨"c1", 0, 4000, "hello world", none⟩ : Caption).startMs ∧
      (⟨"cap_f", 2001, 4000, "world", some [⟨"world", 2000, 4000⟩]⟩ :
          Caption).id = "cap_f")) :=
  ⟨by decide, by decide,
   claim_C6_split_next_spans ⟨"c1", 0, 4000, "hello world", none⟩ 1 "cap_f"
     _ _ _ _ (by decide) (by decide)⟩

/-- C7: `adjustSrtForTrim` serializes exactly the trim-adjusted caption
list; that list retains exactly the captions whose span overlaps
`[trimStart, trimEnd)`, each retained caption is the original shifted by
`-trimStart` (start clamped at 0) with its end clamped to the window
length, every produced end is within the window length, and the window
`[2000, 6000)` applied to `{0, 4000, "A"}` and `{4000, 8000, "B"}` yields
`"A"` at `{0, 2000}` and `"B"` at `{2000, 4000}`. -/
theorem claim_C7_adjust_for_trim (caps : List Caption) (ts te : Int) :
    adjustSrtForTrim caps ts te =
      captionsToSrt (adjustCaptionsForTrim caps ts te) ∧
    (adjustCaptionsForTrim caps ts te).length =
      (caps.filter (fun c =>
        decide (c.startMs < te) && decide (ts < c.endMs))).length ∧
    (∀ c ∈ caps, c.startMs < te → ts < c.endMs →
      ({ c with
          startMs := max 0 (c.startMs - ts),
          endMs := min (te - ts) (c.endMs - ts) } : Caption) ∈
        adjustCaptionsForTrim caps ts te) ∧
    (∀ c ∈ adjustCaptionsForTrim caps ts te, c.endMs ≤ te - ts) ∧
    adjustCaptionsForTrim
        [⟨"A", 0, 4000, "A", none⟩, ⟨"B", 4000, 8000, "B", none⟩]
        2000 6000 =
      [⟨"A", 0, 2000, "A", none⟩, ⟨"B", 2000, 4000, "B", none⟩] := by
  refine ⟨rfl, ?_, ?_, ?_, by decide⟩
  · unfold adjustCaptionsForTrim
    exact List.length_map _ _
  · intro c hc h1 h2
    unfold adjustCaptionsForTrim
    exact List.mem_map_of_mem _
      (List.mem_filter.mpr ⟨hc, by simp [h1, h2]⟩)
  · intro c hc
    unfold adjustCaptionsForTrim at hc
    rcases List.mem_map.mp hc with ⟨c0, _, hc0⟩
    rw [← hc0]
    exact min_le_left _ _

/-- Witness for C7: caption `"B"` overlaps the window `[2000, 6000)` and
its shifted/clamped image is in the adjusted list. -/
theorem claim_C7_adjust_for_trim_witness :
    ((⟨"B", 4000, 8000, "B", none⟩ : Caption) ∈
        [(⟨"A", 0, 4000, "A", none⟩ : Caption), ⟨"B", 4000, 8000, "B", none⟩] ∧
      (⟨"B", 4000, 8000, "B", none⟩ : Caption).startMs < 6000 ∧
      (2000 : Int) < (⟨"B", 4000, 8000, "B", none⟩ : Caption).endMs) ∧
    (⟨"B", 2000, 4000, "B", none⟩ : Caption) ∈
      adjustCaptionsForTrim
        [⟨"A", 0, 4000, "A", none⟩, ⟨"B", 4000, 8000, "B", none⟩]
        2000 6000 :=
  ⟨⟨by decide, by decide, by decide⟩,
   (claim_C7_adjust_for_trim
        [⟨"A", 0, 4000, "A", none⟩, ⟨"B", 4000, 8000, "B", none⟩]
        2000 6000).2.2.1
      ⟨"B", 4000, 8000, "B", none⟩ (by decide) (by decide) (by decide)⟩

/-- The formatted time always contains its three separator characters,
so it is at least three characters long. -/
theorem msToFFmpegTime_length (n : Nat) :
    3 ≤ (FFmpegWorker.msToFFmpegTime n).length := by
  unfold FFmpegWorker.msToFFmpegTime
  simp only [String.length_append]
  have h1 : (":" : String).length = 1 := rfl
  have h2 : ("." : String).length = 1 := rfl
  omega

/-- A formatted time is never the flag `-t`. -/
theorem msToFFmpegTime_ne_t (n : Nat) :
    FFmpegWorker.msToFFmpegTime n ≠ "-t" := by
  intro h
  have hl := congrArg String.length h
  have h2 : ("-t" : String).length = 2 := rfl
  have h3 := msToFFmpegTime_length n
  omega

/-- C5 counterexample: the legacy worker revision's trim argument
construction, cited by the claim, passes the seek argument even for
`startMs = 0` — refuting "`-ss` is included iff `startMs > 0`" — and
passes the finite window end as the position argument
`-to 00:00:05.000`, with no `-t` duration argument anywhere — refuting
"the duration argument is included iff `endMs` is finite". -/
theorem claim_C5_counterexample :
    FFmpegWorkerLegacy.trimExecArgs 0 5000 "mp4" =
      ["-i", "input.mp4", "-ss", "00:00:00.000", "-to", "00:00:05.000",
       "-c:v", "libx264", "-preset", "ultrafast", "-crf", "23",
       "-c:a", "aac", "-b:a", "128k", "-movflags", "+faststart",
       "-y", "output.mp4"] ∧
    "-ss" ∈ FFmpegWorkerLegacy.trimExecArgs 0 5000 "mp4" ∧
    "-t" ∉ FFmpegWorkerLegacy.trimExecArgs 0 5000 "mp4" :=
  ⟨by decide, by decide, by decide⟩

/-- C5 (amended): the current worker's `buildTrimArgs` satisfies the
claim as stated — the seek argument `-ss` (with the formatted start) is
included iff `startMs > 0`; a duration argument `-t` is included iff
`endMs` is finite, with value the formatted `endMs - startMs`; and for
`startMs = 0` with unbounded `endMs` the list is empty.  The legacy
worker's `handleTrim` instead always passes `-ss` with the formatted
start (even when `startMs = 0`) and passes the window end as a position
argument `-to` with the formatted `endMs`; it never constructs a `-t`
duration argument. -/
theorem claim_C5_trim_args (s : Nat) (e : Option Nat) :
    (((∃ rest, FFmpegWorker.buildTrimArgs s e =
        "-ss" :: FFmpegWorker.msToFFmpegTime s :: rest) ↔ 0 < s) ∧
    ((∃ pre q, FFmpegWorker.buildTrimArgs s e = pre ++ ["-t", q]) ↔
      e ≠ none) ∧
    (∀ d, e = some d → ∃ pre, FFmpegWorker.buildTrimArgs s e =
        pre ++ ["-t", FFmpegWorker.msToFFmpegTime (d - s)]) ∧
    (s = 0 → e = none → FFmpegWorker.buildTrimArgs s e = [])) ∧
    (∀ (sL eL : Nat) (f : String), ∃ rest,
      FFmpegWorkerLegacy.trimExecArgs sL eL f =
        "-i" :: "input.mp4" :: "-ss" :: FFmpegWorker.msToFFmpegTime sL ::
          "-to" :: FFmpegWorker.msToFFmpegTime eL :: rest) ∧
    (∀ (sL eL : Nat) (f : String),
      "-t" ∉ FFmpegWorkerLegacy.trimExecArgs sL eL f) := by
  refine ⟨?_, fun sL eL f => ⟨_, rfl⟩, ?_⟩
  case refine_2 =>
    intro sL eL f hmem
    simp only [FFmpegWorkerLegacy.trimExecArgs, List.mem_cons,
      List.not_mem_nil, or_false] at hmem
    rcases hmem with h | h | h | h | h | h | h | h | h | h | h | h | h |
      h | h | h | h | h | h | h
    · exact absurd h (by decide)
    · exact absurd h (by decide)
    · exact absurd h (by decide)
    · exact msToFFmpegTime_ne_t sL h.symm
    · exact absurd h (by decide)
    · exact msToFFmpegTime_ne_t eL h.symm
    · exact absurd h (by decide)
    · split at h <;> exact absurd h (by decide)
    · exact absurd h (by decide)
    · exact absurd h (by decide)
    · exact absurd h (by decide)
    · split at h <;> exact absurd h (by decide)
    · exact absurd h (by decide)
    · split at h <;> exact absurd h (by decide)
    · exact absurd h (by decide)
    · exact absurd h (by decide)
    · exact absurd h (by decide)
    · exact absurd h (by decide)
    · exact absurd h (by decide)
    · have hl := congrArg String.length h
      rw [String.length_append] at hl
      have h2 : ("-t" : String).length = 2 := rfl
      have h7 : ("output." : String).length = 7 := rfl
      omega
  rcases e with _ | d
  · by_cases hs : 0 < s
    · have hargs : FFmpegWorker.buildTrimArgs s none =
          ["-ss", FFmpegWorker.msToFFmpegTime s] := by
        simp [FFmpegWorker.buildTrimArgs, hs]
      refine ⟨⟨fun _ => hs, fun _ => ⟨[], by simp [hargs]⟩⟩, ?_, ?_, ?_⟩
      · constructor
        · rintro ⟨pre, q, hpq⟩
          rw [hargs] at hpq
          exfalso
          rcases pre with _ | ⟨a, pre⟩
          · simp at hpq
          · rcases pre with _ | ⟨b, pre⟩ <;> simp at hpq
        · intro h
          exact absurd rfl h
      · intro d hd
        cases hd
      · intro h0
        omega
    · have hs0 : s = 0 := by omega
      subst hs0
      have hargs : FFmpegWorker.buildTrimArgs 0 none = [] := by
        simp [FFmpegWorker.buildTrimArgs]
      refine ⟨?_, ?_, ?_, fun _ _ => hargs⟩
      · constructor
        · rintro ⟨rest, hr⟩
          rw [hargs] at hr
          cases hr
        · intro h
          omega
      · constructor
        · rintro ⟨pre, q, hpq⟩
          rw [hargs] at hpq
          rcases pre with _ | ⟨a, pre⟩ <;> simp at hpq
        · intro h
          exact absurd rfl h
      · intro d hd
        cases hd
  · by_cases hs : 0 < s
    · have hargs : FFmpegWorker.buildTrimArgs s (some d) =
          ["-ss", FFmpegWorker.msToFFmpegTime s,
           "-t", FFmpegWorker.msToFFmpegTime (d - s)] := by
        simp [FFmpegWorker.buildTrimArgs, hs]
      refine ⟨⟨fun _ => hs, fun _ => ⟨_, by rw [hargs]⟩⟩, ?_, ?_, ?_⟩
      · constructor
        · intro _
          simp
        · intro _
          exact ⟨["-ss", FFmpegWorker.msToFFmpegTime s],
            FFmpegWorker.msToFFmpegTime (d - s), by simp [hargs]⟩
      · rintro d' hd
        rw [Option.some_inj] at hd
        subst hd
        exact ⟨["-ss", FFmpegWorker.msToFFmpegTime s], by simp [hargs]⟩
      · intro h0
        omega
    · have hs0 : s = 0 := by omega
      subst hs0
      have hargs : FFmpegWorker.buildTrimArgs 0 (some d) =
          ["-t", FFmpegWorker.msToFFmpegTime (d - 0)] := by
        simp [FFmpegWorker.buildTrimArgs]
      refine ⟨?_, ?_, ?_, ?_⟩
      · constructor
        · rintro ⟨rest, hr⟩
          rw [hargs] at hr
          simp at hr
        · intro h
          omega
      · constructor
        · intro _
          simp
        · intro _
          exact ⟨[], FFmpegWorker.msToFFmpegTime (d - 0), by simp [hargs]⟩
      · rintro d' hd
        rw [Option.some_inj] at hd
        subst hd
        exact ⟨[], by simp [hargs]⟩
      · intro _ h
        cases h

/-- Witness for C5 on the window `[3000 ms, 10000 ms)` for the current
worker (seek plus a 7-second duration argument) and on `[2000, 6000)`
for the legacy construction (unconditional seek, positional end, no
duration flag). -/
theorem claim_C5_trim_args_witness :
    (((∃ rest, FFmpegWorker.buildTrimArgs 3000 (some 10000) =
        "-ss" :: FFmpegWorker.msToFFmpegTime 3000 :: rest) ↔ 0 < 3000) ∧
    ((∃ pre q, FFmpegWorker.buildTrimArgs 3000 (some 10000) =
        pre ++ ["-t", q]) ↔ (some 10000 : Option Nat) ≠ none) ∧
    (∀ d, (some 10000 : Option Nat) = some d →
      ∃ pre, FFmpegWorker.buildTrimArgs 3000 (some 10000) =
        pre ++ ["-t", FFmpegWorker.msToFFmpegTime (d - 3000)]) ∧
    (3000 = 0 → (some 10000 : Option Nat) = none →
      FFmpegWorker.buildTrimArgs 3000 (some 10000) = [])) ∧
    (∃ rest, FFmpegWorkerLegacy.trimExecArgs 2000 6000 "mp4" =
      "-i" :: "input.mp4" :: "-ss" :: FFmpegWorker.msToFFmpegTime 2000 ::
        "-to" :: FFmpegWorker.msToFFmpegTime 6000 :: rest) ∧
    "-t" ∉ FFmpegWorkerLegacy.trimExecArgs 2000 6000 "mp4" :=
  ⟨(claim_C5_trim_args 3000 (some 10000)).1,
   (claim_C5_trim_args 3000 (some 10000)).2.1 2000 6000 "mp4",
   (claim_C5_trim_args 3000 (some 10000)).2.2 2000 6000 "mp4"⟩

/-- C4 counterexample: in the legacy worker revision, a trim run in which
every step succeeds but the read-back output has zero bytes posts a
`completed` message carrying an empty payload (and no error): the claim
that an empty read-back is never surfaced as `completed` fails there. -/
theorem claim_C4_counterexample :
    FFmpegWorkerLegacy.handleTrim 7 "mp4"
        ⟨true, false, true, false, true, false, true, 0, false⟩ =
      [.progress 7 5 "initializing", .progress 7 10 "loading input",
       .progress 7 20 "encoding", .progress 7 90 "reading output",
       .progress 7 100 "complete", .completed 7 0 "video/mp4"] ∧
    FFmpegWorker.WMsg.completed 7 0 "video/mp4" ∈
      FFmpegWorkerLegacy.handleTrim 7 "mp4"
        ⟨true, false, true, false, true, false, true, 0, false⟩ := by
  constructor
  · decide
  · decide

/-- C4 (amended): in the current worker revision, a trim or burn-in run
whose engine steps all succeed but whose read-back output has zero bytes
(with no pending cancellation) ends in an `OUTPUT_ERROR` error message
and posts no `completed` message; moreover, in the current worker, every
`completed` message posted by either handler carries a non-empty payload.
The legacy worker revision's trim handler lacks the empty-output check
and posts `completed` even for a zero-byte output. -/
theorem claim_C4_empty_output_is_error (j : Nat) (fmt : String) :
    (∀ env : FFmpegWorker.TrimRunEnv,
      env.loadOk = true → env.cancelAfterLoad = false →
      env.writeOk = true → env.cancelAfterWrite = false →
      env.execOk = true → env.cancelAfterExec = false →
      env.readOk = true → env.outputLen = 0 → env.cancelAtCatch = false →
      FFmpegWorker.handleTrim j fmt env =
        [.progress j 5 "initializing", .progress j 10 "loading input",
         .progress j 20 "encoding", .progress j 90 "reading output",
         .error j .OUTPUT_ERROR "영상 트림 중 오류가 발생했습니다."]) ∧
    (∀ env : FFmpegWorker.BurninRunEnv,
      env.loadOk = true → env.cancelAfterLoad = false →
      env.writeOk = true → env.cancelAfterWrite = false →
      env.fontOk = true →
      env.execOk = true → env.cancelAfterExec = false →
      env.readOk = true → env.outputLen = 0 → env.cancelAtCatch = false →
      FFmpegWorker.handleBurnin j fmt env =
        [.progress j 5 "initializing", .progress j 10 "loading input",
         .progress j 20 "encoding", .progress j 90 "reading output",
         .error j .OUTPUT_ERROR "자막 번인 중 오류가 발생했습니다."]) ∧
    (∀ env : FFmpegWorker.TrimRunEnv, ∀ i len mime,
      FFmpegWorker.WMsg.completed i len mime ∈
        FFmpegWorker.handleTrim j fmt env → 0 < len) ∧
    (∀ env : FFmpegWorker.BurninRunEnv, ∀ i len mime,
      FFmpegWorker.WMsg.completed i len mime ∈
        FFmpegWorker.handleBurnin j fmt env → 0 < len) := by
  refine ⟨?_, ?_, ?_, ?_⟩
  · intro env h1 h2 h3 h4 h5 h6 h7 h8 h9
    simp [FFmpegWorker.handleTrim, FFmpegWorker.catchMsgs,
      h1, h2, h3, h4, h5, h6, h7, h8, h9]
  · intro env h1 h2 h3 h4 h5 h6 h7 h8 h9 h10
    simp [FFmpegWorker.handleBurnin, FFmpegWorker.catchMsgs,
      h1, h2, h3, h4, h5, h6, h7, h8, h9, h10]
  · intro env i len mime hmem
    unfold FFmpegWorker.handleTrim at hmem
    rcases env with ⟨lo, c1, wo, c2, eo, c3, ro, n, cc⟩
    cases lo <;> cases c1 <;> cases wo <;> cases c2 <;> cases eo <;>
      cases c3 <;> cases ro <;> cases cc <;> cases n <;>
      simp_all [FFmpegWorker.catchMsgs]
  · intro env i len mime hmem
    unfold FFmpegWorker.handleBurnin at hmem
    rcases env with ⟨lo, c1, wo, c2, fo, eo, c3, ro, n, cc⟩
    cases lo <;> cases c1 <;> cases wo <;> cases c2 <;> cases fo <;>
      cases eo <;> cases c3 <;> cases ro <;> cases cc <;> cases n <;>
      simp_all [FFmpegWorker.catchMsgs]

/-- Witness for C4: the empty-output trim and burn-in runs end in
`OUTPUT_ERROR`, and a successful 3-byte trim run's `completed` message
carries a positive payload. -/
theorem claim_C4_empty_output_is_error_witness :
    FFmpegWorker.handleTrim 7 "mp4"
        ⟨true, false, true, false, true, false, true, 0, false⟩ =
      [.progress 7 5 "initializing", .progress 7 10 "loading input",
       .progress 7 20 "encoding", .progress 7 90 "reading output",
       .error 7 .OUTPUT_ERROR "영상 트림 중 오류가 발생했습니다."] ∧
    FFmpegWorker.handleBurnin 7 "mp4"
        ⟨true, false, true, false, true, true, false, true, 0, false⟩ =
      [.progress 7 5 "initializing", .progress 7 10 "loading input",
       .progress 7 20 "encoding", .progress 7 90 "reading output",
       .error 7 .OUTPUT_ERROR "자막 번인 중 오류가 발생했습니다."] ∧
    (FFmpegWorker.WMsg.completed 7 3 "video/mp4" ∈
        FFmpegWorker.handleTrim 7 "mp4"
          ⟨true, false, true, false, true, false, true, 3, false⟩ ∧
      0 < 3) :=
  ⟨(claim_C4_empty_output_is_error 7 "mp4").1
      ⟨true, false, true, false, true, false, true, 0, false⟩
      rfl rfl rfl rfl rfl rfl rfl rfl rfl,
   (claim_C4_empty_output_is_error 7 "mp4").2.1
      ⟨true, false, true, false, true, true, false, true, 0, false⟩
      rfl rfl rfl rfl rfl rfl rfl rfl rfl rfl,
   by decide,
   (claim_C4_empty_output_is_error 7 "mp4").2.2.1
      ⟨true, false, true, false, true, false, true, 3, false⟩
      7 3 "video/mp4" (by decide)⟩

/-- C1: a `startJob` call made while another job is in flight
(`currentJobId` non-null) is rejected immediately with an error (NOT
queued: the only output is the rejection, nothing is posted to the
worker) and leaves the client state — including the running job's table
entry and timer — unchanged, so the running job's entire subsequent
behaviour on any event trace is unchanged. -/
theorem claim_C1_single_concurrency (s : FFmpegClient.ClientState)
    (k : FFmpegClient.JobKind) (tMs : Option Nat) (newId : Nat)
    (hbusy : s.currentJobId.isSome = true) :
    (FFmpegClient.stepClient s (.start k tMs newId)).1 = s ∧
    ((FFmpegClient.stepClient s (.start k tMs newId)).2 =
        [.startRejected newId .NOT_READY] ∨
      (FFmpegClient.stepClient s (.start k tMs newId)).2 =
        [.startRejected newId .INVALID_ARGS]) ∧
    (∀ es, FFmpegClient.runClient
        (FFmpegClient.stepClient s (.start k tMs newId)).1 es =
      FFmpegClient.runClient s es) := by
  by_cases h1 : (s.isInitialized && s.workerAlive) = true
  · have hstep : FFmpegClient.stepClient s (.start k tMs newId) =
        (s, [.startRejected newId .INVALID_ARGS]) := by
      simp [FFmpegClient.stepClient, h1, hbusy]
    rw [hstep]
    exact ⟨rfl, Or.inr rfl, fun es => rfl⟩
  · have hstep : FFmpegClient.stepClient s (.start k tMs newId) =
        (s, [.startRejected newId .NOT_READY]) := by
      simp [FFmpegClient.stepClient, h1]
    rw [hstep]
    exact ⟨rfl, Or.inl rfl, fun es => rfl⟩

/-- Witness for C1: a ready client already running job 7 rejects a new
trim start with id 8 and is left unchanged. -/
theorem claim_C1_single_concurrency_witness :
    ((⟨true, true, some 7, [(7, 300000)]⟩ :
        FFmpegClient.ClientState).currentJobId.isSome = true) ∧
    ((FFmpegClient.stepClient ⟨true, true, some 7, [(7, 300000)]⟩
        (.start .trim none 8)).1 =
      (⟨true, true, some 7, [(7, 300000)]⟩ : FFmpegClient.ClientState) ∧
    ((FFmpegClient.stepClient ⟨true, true, some 7, [(7, 300000)]⟩
          (.start .trim none 8)).2 =
        [.startRejected 8 .NOT_READY] ∨
      (FFmpegClient.stepClient ⟨true, true, some 7, [(7, 300000)]⟩
          (.start .trim none 8)).2 =
        [.startRejected 8 .INVALID_ARGS]) ∧
    (∀ es, FFmpegClient.runClient
        (FFmpegClient.stepClient ⟨true, true, some 7, [(7, 300000)]⟩
          (.start .trim none 8)).1 es =
      FFmpegClient.runClient ⟨true, true, some 7, [(7, 300000)]⟩ es)) :=
  ⟨by decide,
   claim_C1_single_concurrency ⟨true, true, some 7, [(7, 300000)]⟩
     .trim none 8 (by decide)⟩

/-- C2: for a started job (exactly one table entry for its id) whose
event trace never re-uses the id for a new start and contains some
terminal signal, the caller-visible promise settles exactly once over the
whole trace; the job's entry (callbacks and timer) is gone at the end;
and, in any state whose table no longer holds the id, every message
carrying that id — progress or terminal — is a strict no-op (state
unchanged, no output). -/
theorem claim_C2_terminal_uniqueness (s : FFmpegClient.ClientState)
    (j : Nat) (es : List FFmpegClient.CEvent)
    (hk : FFmpegClient.keyCount j s.jobTable = 1)
    (hns : es.all (fun e => !FFmpegClient.isStartFor j e) = true)
    (hterm : es.any (FFmpegClient.terminalForJob j) = true) :
    FFmpegClient.countSettles j (FFmpegClient.runClient s es).2 = 1 ∧
    FFmpegClient.keyCount j
      ((FFmpegClient.runClient s es).1).jobTable = 0 ∧
    (∀ (s' : FFmpegClient.ClientState) (e : FFmpegClient.CEvent),
      FFmpegClient.keyCount j s'.jobTable = 0 →
      FFmpegClient.carriesJob j e = true →
      FFmpegClient.stepClient s' e = (s', [])) := by
  have h := FFmpegClient.runClient_present j es s hns hk hterm
  exact ⟨h.1, h.2, fun s' e h0 hc =>
    FFmpegClient.stepClient_noop_absent s' e j hc h0⟩

/-- Witness for C2: job 7, running with its 5-minute timer armed,
receives a completed message, then a duplicate completed message and a
late progress message; the promise settles exactly once and the entry is
gone. -/
theorem claim_C2_terminal_uniqueness_witness :
    (FFmpegClient.keyCount 7
        (⟨true, true, some 7, [(7, 300000)]⟩ :
          FFmpegClient.ClientState).jobTable = 1 ∧
      ([.wcompleted 7 5, .wcompleted 7 5, .wprogress 7 50] :
          List FFmpegClient.CEvent).all
        (fun e => !FFmpegClient.isStartFor 7 e) = true ∧
      ([.wcompleted 7 5, .wcompleted 7 5, .wprogress 7 50] :
          List FFmpegClient.CEvent).any
        (FFmpegClient.terminalForJob 7) = true) ∧
    (FFmpegClient.countSettles 7
        (FFmpegClient.runClient ⟨true, true, some 7, [(7, 300000)]⟩
          [.wcompleted 7 5, .wcompleted 7 5, .wprogress 7 50]).2 = 1 ∧
      FFmpegClient.keyCount 7
        ((FFmpegClient.runClient ⟨true, true, some 7, [(7, 300000)]⟩
          [.wcompleted 7 5, .wcompleted 7 5, .wprogress 7 50]).1).jobTable =
        0 ∧
      (∀ (s' : FFmpegClient.ClientState) (e : FFmpegClient.CEvent),
        FFmpegClient.keyCount 7 s'.jobTable = 0 →
        FFmpegClient.carriesJob 7 e = true →
        FFmpegClient.stepClient s' e = (s', []))) :=
  ⟨⟨by decide, by decide, by decide⟩,
   claim_C2_terminal_uniqueness ⟨true, true, some 7, [(7, 300000)]⟩ 7
     [.wcompleted 7 5, .wcompleted 7 5, .wprogress 7 50]
     (by decide) (by decide) (by decide)⟩

/-- C3: a job started without an explicit `timeoutMs` is armed with the
5-minute default (`DEFAULT_TIMEOUT_MS = 300000 ms`); when the timeout of
a still-live job fires, the step produces exactly the TIMEOUT rejection
(one settle) followed by a `cancel` request for that job id posted to the
worker, and removes the job's entry; a `completed` message for that id
arriving afterwards is a no-op. -/
theorem claim_C3_default_timeout (s : FFmpegClient.ClientState)
    (k : FFmpegClient.JobKind) (newId : Nat)
    (s' : FFmpegClient.ClientState) (j t len : Nat)
    (hinit : s.isInitialized = true) (halive : s.workerAlive = true)
    (hidle : s.currentJobId = none)
    (hlive : FFmpegClient.findJob j s'.jobTable = some t) :
    FFmpegClient.DEFAULT_TIMEOUT_MS = 5 * 60 * 1000 ∧
    FFmpegClient.stepClient s (.start k none newId) =
      ({ s with
          currentJobId := some newId,
          jobTable := (newId, FFmpegClient.DEFAULT_TIMEOUT_MS) ::
            s.jobTable },
       [.post (.jobReq k newId)]) ∧
    FFmpegClient.findJob newId
        ((FFmpegClient.stepClient s (.start k none newId)).1).jobTable =
      some 300000 ∧
    FFmpegClient.stepClient s' (.timeoutFire j) =
      (FFmpegClient.cleanupJob j s',
       [.settle j (.rejected .TIMEOUT), .post (.cancelReq j)]) ∧
    FFmpegClient.countSettles j
      (FFmpegClient.stepClient s' (.timeoutFire j)).2 = 1 ∧
    FFmpegClient.stepClient (FFmpegClient.cleanupJob j s')
      (.wcompleted j len) = (FFmpegClient.cleanupJob j s', []) := by
  have hready : (s.isInitialized && s.workerAlive) = true := by
    rw [hinit, halive]
    rfl
  have hstart : FFmpegClient.stepClient s (.start k none newId) =
      ({ s with
          currentJobId := some newId,
          jobTable := (newId, FFmpegClient.DEFAULT_TIMEOUT_MS) ::
            s.jobTable },
       [.post (.jobReq k newId)]) := by
    simp [FFmpegClient.stepClient, hready, hidle, Option.getD]
  have hfire : FFmpegClient.stepClient s' (.timeoutFire j) =
      (FFmpegClient.cleanupJob j s',
       [.settle j (.rejected .TIMEOUT), .post (.cancelReq j)]) := by
    simp [FFmpegClient.stepClient, hlive]
  refine ⟨rfl, hstart, ?_, hfire, ?_, ?_⟩
  · rw [hstart]
    simp [FFmpegClient.findJob]
    rfl
  · rw [hfire]
    simp [FFmpegClient.countSettles]
  · have hnone : FFmpegClient.findJob j
        (FFmpegClient.cleanupJob j s').jobTable = none := by
      simp [FFmpegClient.cleanupJob, FFmpegClient.findJob_eraseJob_self]
    simp [FFmpegClient.stepClient, hnone]

/-- Witness for C3: a ready idle client starts a burn-in job 9 with the
default timeout; in a state where job 9 is live its timeout fires,
settling once with TIMEOUT and posting a cancel; a late completed for
job 9 is then ignored. -/
theorem claim_C3_default_timeout_witness :
    ((⟨true, true, none, []⟩ :
        FFmpegClient.ClientState).isInitialized = true ∧
      (⟨true, true, none, []⟩ :
        FFmpegClient.ClientState).workerAlive = true ∧
      (⟨true, true, none, []⟩ :
        FFmpegClient.ClientState).currentJobId = none ∧
      FFmpegClient.findJob 9
        (⟨true, true, some 9, [(9, 300000)]⟩ :
          FFmpegClient.ClientState).jobTable = some 300000) ∧
    (FFmpegClient.DEFAULT_TIMEOUT_MS = 5 * 60 * 1000 ∧
      FFmpegClient.stepClient ⟨true, true, none, []⟩
          (.start .burnin none 9) =
        (⟨true, true, some 9, [(9, FFmpegClient.DEFAULT_TIMEOUT_MS)]⟩,
         [.post (.jobReq .burnin 9)]) ∧
      FFmpegClient.findJob 9
          ((FFmpegClient.stepClient ⟨true, true, none, []⟩
            (.start .burnin none 9)).1).jobTable = some 300000 ∧
      FFmpegClient.stepClient ⟨true, true, some 9, [(9, 300000)]⟩
          (.timeoutFire 9) =
        (FFmpegClient.cleanupJob 9 ⟨true, true, some 9, [(9, 300000)]⟩,
         [.settle 9 (.rejected .TIMEOUT), .post (.cancelReq 9)]) ∧
      FFmpegClient.countSettles 9
        (FFmpegClient.stepClient ⟨true, true, some 9, [(9, 300000)]⟩
          (.timeoutFire 9)).2 = 1 ∧
      FFmpegClient.stepClient
          (FFmpegClient.cleanupJob 9 ⟨true, true, some 9, [(9, 300000)]⟩)
          (.wcompleted 9 5) =
        (FFmpegClient.cleanupJob 9 ⟨true, true, some 9, [(9, 300000)]⟩,
         [])) :=
  ⟨⟨rfl, rfl, rfl, by decide⟩,
   claim_C3_default_timeout ⟨true, true, none, []⟩ .burnin 9
     ⟨true, true, some 9, [(9, 300000)]⟩ 9 300000 5
     rfl rfl rfl (by decide)⟩

end MiniVrew
